import Mathlib

/-
Verification of the alert-group-nl-log2slack event pipeline.

The definitions below are a shallow embedding of the Python source
`alert_group_nl_log2slack.py`: the row dictionaries become structures with
one field per column label, Python `datetime.date` / `datetime.datetime`
values become tuples of naturals compared lexicographically, fallible code
returns `Except`, and the polling loop's set state becomes explicit
`Finset` state passing.
-/

namespace AlertLog

/-- Naive local date, as produced by Python `datetime.date`. -/
structure PyDate where
  year : Nat
  month : Nat
  day : Nat
deriving DecidableEq

/-- Naive local datetime, as produced by Python `datetime.datetime`.
Python compares datetimes componentwise lexicographically. -/
structure PyDateTime where
  year : Nat
  month : Nat
  day : Nat
  hour : Nat
  minute : Nat
  second : Nat
deriving DecidableEq

/-- Gregorian leap-year rule used by Python `datetime`. -/
def isLeapYear (y : Nat) : Bool :=
  (y % 4 = 0 && y % 100 ≠ 0) || y % 400 = 0

/-- Number of days in a month, as validated by Python `datetime.date`. -/
def daysInMonth (y m : Nat) : Nat :=
  if m = 2 then (if isLeapYear y then 29 else 28)
  else if m = 4 || m = 6 || m = 9 || m = 11 then 30
  else 31

/-- Validity check performed by the Python `datetime.date` constructor. -/
def validDate (y m d : Nat) : Bool :=
  1 ≤ y && y ≤ 9999 && 1 ≤ m && m ≤ 12 && 1 ≤ d && d ≤ daysInMonth y m

/-- Validity check performed by the Python `datetime.datetime` constructor
on the time-of-day components. -/
def validTime (h mi s : Nat) : Bool :=
  h < 24 && mi < 60 && s < 60

/-- One raw table row as produced by `html_table_to_dicts` for the alarm
history table: the six column labels of the scraped table, each holding
trimmed cell text.  `tijd` is still a string (`dd/mm/yy` or `hh:mm:ss`). -/
structure RawRow where
  aansluiting : String
  alrm : String
  groep : String
  omschrijving : String
  sector : String
  tijd : String
deriving DecidableEq

/-- A row after `fix_dicts_datetime`: the `Tijd` column has been promoted to
a full datetime, and `fix_dicts_who_did_what` may later attach an `Info`
key, modelled as an `Option` field (Python rows start without the key). -/
structure DRow where
  aansluiting : String
  alrm : String
  groep : String
  omschrijving : String
  sector : String
  tijd : PyDateTime
  info : Option String
deriving DecidableEq

/-- Splitting a character list at every occurrence of `sep`, mirroring
Python `str.split(sep)` for a one-character separator. -/
def splitCharsOn (sep : Char) : List Char → List (List Char)
  | [] => [[]]
  | c :: cs =>
    if c = sep then [] :: splitCharsOn sep cs
    else
      match splitCharsOn sep cs with
      | [] => [[c]]
      | grp :: rest => (c :: grp) :: rest

/-- Python `s.split(sep)` for a one-character separator `sep`. -/
def splitOnChar (sep : Char) (s : String) : List String :=
  (splitCharsOn sep s.data).map (fun l => ⟨l⟩)

/-- Python `int(s)` as used on the date and time fragments of the table:
defined on (non-empty) plain decimal-digit strings, the only shape the
scraped `dd/mm/yy` and `hh:mm:ss` fragments can successfully take through
the subsequent `datetime` constructors. -/
def pyInt? (s : String) : Option Nat :=
  if s.data ≠ [] && s.data.all Char.isDigit then
    some (s.data.foldl (fun n c => 10 * n + (c.toNat - 48)) 0)
  else none

/-- Date-separator predicate from `fix_dicts_datetime`: all identity
columns empty and the sector column holding the sentinel. -/
def isDateSep (row : RawRow) : Bool :=
  decide (row.aansluiting = "") && decide (row.alrm = "") &&
  decide (row.groep = "") && decide (row.omschrijving = "") &&
  decide (row.sector = "---")

/-- Parsing the `dd/mm/yy` field of a date-separator row, including the
century completion and the `datetime.date` constructor validation. -/
def parseSepDate (tijd : String) : Option PyDate :=
  match splitOnChar '/' tijd with
  | [dd, mm, yy] =>
    match pyInt? yy, pyInt? mm, pyInt? dd with
    | some y, some m, some d =>
      if validDate (2000 + y) m d then some ⟨2000 + y, m, d⟩ else none
    | _, _, _ => none
  | _ => none

/-- Carrying one `RawRow` over into a `DRow` with the given date context
and parsed time of day. -/
def promoteRow (row : RawRow) (d : PyDate) (h mi s : Nat) : DRow :=
  { aansluiting := row.aansluiting
    alrm := row.alrm
    groep := row.groep
    omschrijving := row.omschrijving
    sector := row.sector
    tijd := ⟨d.year, d.month, d.day, h, mi, s⟩
    info := none }

/-- Loop body of `fix_dicts_datetime`, threading the current date context.
The evaluation order matches the Python line by line: a non-separator row
first unpacks `Tijd` by `:` into exactly three parts, then dereferences the
date context (`AttributeError` when it is still `None`), then parses the
three integers and runs the `datetime.datetime` validation. -/
def fddGo (date : Option PyDate) : List RawRow → Except String (List DRow)
  | [] => .ok []
  | row :: rest =>
    if isDateSep row then
      match parseSepDate row.tijd with
      | some d => fddGo (some d) rest
      | none => .error "invalid date separator row"
    else
      match splitOnChar ':' row.tijd with
      | [hh, mm, ss] =>
        match date with
        | none => .error "time row before any date separator"
        | some d =>
          match pyInt? hh, pyInt? mm, pyInt? ss with
          | some h, some mi, some s =>
            if validTime h mi s then
              Except.map (fun tail => promoteRow row d h mi s :: tail)
                (fddGo (some d) rest)
            else .error "invalid time of day"
          | _, _, _ => .error "invalid time of day"
      | _ => .error "invalid time format"

/-- Date-context merger `fix_dicts_datetime`: date-separator rows set the
current date and are dropped, every other row is promoted to a full
datetime using that context. -/
def fix_dicts_datetime (data : List RawRow) : Except String (List DRow) :=
  fddGo none data

/-- Correlation key comparison of `fix_dicts_who_did_what`: the four
equality checks on `Aansluiting`, `Groep`, `Sector` and `Tijd`. -/
def sameKey (a b : DRow) : Bool :=
  decide (a.aansluiting = b.aansluiting) && decide (a.groep = b.groep) &&
  decide (a.sector = b.sector) && decide (a.tijd = b.tijd)

/-- State of the `fix_dicts_who_did_what` loop: the emitted rows so far
(`new_data`), the pending forward annotation (`info`) and the most recently
emitted row available for backward correlation (`last_row`).  Whenever
`last` is `some`, it is the final element of `acc`; the Python code mutates
that row in place through the alias, modelled here by rewriting the last
element of `acc`. -/
structure WState where
  acc : List DRow
  info : Option DRow
  last : Option DRow

/-- One iteration of the `fix_dicts_who_did_what` loop body. -/
def widwStep (s : WState) (row : DRow) : Except String WState :=
  if row.alrm = "INF" then
    match s.last with
    | some lr =>
      if sameKey lr row then
        let patched := { lr with info := some row.omschrijving }
        .ok { acc := s.acc.dropLast ++ [patched], info := s.info,
              last := some patched }
      else
        .ok { s with info := some row }
    | none => .ok { s with info := some row }
  else
    match s.info with
    | some inf =>
      if sameKey row inf then
        .ok { acc := s.acc ++ [{ row with info := some inf.omschrijving }],
              info := none, last := none }
      else
        .error "annotation key does not match row"
    | none =>
      .ok { acc := s.acc ++ [row], info := none, last := some row }

/-- Driving the `fix_dicts_who_did_what` loop over the remaining rows. -/
def widwGo (s : WState) : List DRow → Except String (List DRow)
  | [] => .ok s.acc
  | row :: rest =>
    match widwStep s row with
    | .ok s2 => widwGo s2 rest
    | .error e => .error e

/-- Annotation reconciler `fix_dicts_who_did_what`: folds each `INF`
annotation row into its correlated substantive row (immediately preceding
or immediately following) and drops the annotation row itself. -/
def fix_dicts_who_did_what (data : List DRow) : Except String (List DRow) :=
  widwGo ⟨[], none, none⟩ data

/-- The canonical output record, mirroring the `AlarmRecord` namedtuple
field for field. -/
structure AlarmRecord where
  datetime : PyDateTime
  event : String
  group : String
  sector : String
  extra : String
deriving DecidableEq

/-- The fixed alarm-code table of `to_records`, with unlisted codes passed
through unchanged (the `dict.get` default). -/
def eventName (alrm : String) : String :=
  if alrm = "IN" then "ALARM_ON"
  else if alrm = "UIT" then "ALARM_OFF"
  else if alrm = "24H" then "24H"
  else if alrm = "TVU" then "UNEXPECT_ALARM_OFF"
  else if alrm = "TLI" then "UNEXPECT_NO_ALARM_YET"
  else if alrm = "AFW" then "OVERRIDE_ALARM_TIME"
  else alrm

/-- The `extra` composition of `to_records`: start from `Info` when
present, then fold in a non-empty `Omschrijving`, either appended in
parentheses or replacing an empty or lone-colon `extra`. -/
def extraOf (row : DRow) : String :=
  let extra := row.info.getD ""
  if row.omschrijving ≠ "" then
    if extra ≠ "" && extra ≠ ":" then
      extra ++ " (" ++ row.omschrijving ++ ")"
    else row.omschrijving
  else extra

/-- Building one `AlarmRecord` from a reconciled row, including the
fallback of an empty event name to the literal marker text used by the
source (Python `event or ...` on the empty string). -/
def recordOfRow (row : DRow) : AlarmRecord :=
  let event := eventName row.alrm
  { datetime := row.tijd
    event := if event = "" then "(log)" else event
    group := row.groep
    sector := row.sector
    extra := extraOf row }

/-- Record normalizer `to_records`: the leading `assert` that every row
shares the first row's `Aansluiting` (evaluated lazily, so an empty batch
passes), then the per-row mapping.  The assert precedes the loop, so on a
mixed batch no record is produced. -/
def to_records : List DRow → Except String (List AlarmRecord)
  | [] => .ok []
  | d0 :: rest =>
    if (d0 :: rest).all (fun i => decide (i.aansluiting = d0.aansluiting)) then
      .ok ((d0 :: rest).map recordOfRow)
    else .error "batch mixes multiple Aansluiting values"

/-- The parse part of `fetch_logs`: the three pipeline stages applied in
order to the extracted rows. -/
def run_pipeline (rows : List RawRow) : Except String (List AlarmRecord) :=
  fix_dicts_datetime rows >>= fix_dicts_who_did_what >>= to_records

/-- C1: running date-context merge, annotation reconciliation and record
normalization on the date-separator row for 02/02/23 followed by the INF
annotation row and the substantive IN row (both group 5, 19:09:48) yields
exactly one record, with timestamp 2023-02-02 19:09:48, event ALARM_ON,
group 5 and detail composed from the annotation and the description. -/
theorem pipeline_concrete_scenario :
    run_pipeline [
      { aansluiting := "", alrm := "", groep := "", omschrijving := "",
        sector := "---", tijd := "02/02/23" },
      { aansluiting := "E0123456", alrm := "INF", groep := "5",
        omschrijving := "VOLL. ING BOB", sector := "0", tijd := "19:09:48" },
      { aansluiting := "E0123456", alrm := "IN", groep := "5",
        omschrijving := "In", sector := "0", tijd := "19:09:48" }] =
    .ok [{ datetime := ⟨2023, 2, 2, 19, 9, 48⟩, event := "ALARM_ON",
           group := "5", sector := "0", extra := "VOLL. ING BOB (In)" }] := by
  rfl

/-- Helper: the four-way correlation key comparison is symmetric. -/
theorem sameKey_symm {a b : DRow} (h : sameKey a b = true) :
    sameKey b a = true := by
  simp only [sameKey, Bool.and_eq_true, decide_eq_true_eq] at h ⊢
  obtain ⟨⟨⟨h1, h2⟩, h3⟩, h4⟩ := h
  exact ⟨⟨⟨h1.symm, h2.symm⟩, h3.symm⟩, h4.symm⟩

/-- C5: the date-context merger emits no row before a date-separator row
has been consumed, and a non-empty input whose first row is not a
date-separator always fails with an error. -/
theorem datectx_requires_separator (row : RawRow) (rest : List RawRow) :
    (isDateSep row = false →
      ∃ e, fix_dicts_datetime (row :: rest) = .error e) ∧
    (∀ out, fix_dicts_datetime (row :: rest) = .ok out → out ≠ [] →
      isDateSep row = true) := by
  have key : isDateSep row = false →
      ∃ e, fix_dicts_datetime (row :: rest) = .error e := by
    intro h
    simp only [fix_dicts_datetime, fddGo, h, Bool.false_eq_true, if_false]
    split
    · exact ⟨_, rfl⟩
    · exact ⟨_, rfl⟩
  refine ⟨key, ?_⟩
  intro out hok hne
  by_contra hcon
  obtain ⟨e, he⟩ := key (by simpa using hcon)
  rw [he] at hok
  cases hok

/-- Concrete first row that is not a date separator. -/
def timeFirstRow : RawRow :=
  { aansluiting := "E0123456", alrm := "INF", groep := "",
    omschrijving := "AUTOTEST", sector := "0", tijd := "10:11:40" }

/-- Witness for the separator requirement at a concrete non-separator
first row. -/
theorem datectx_requires_separator_witness :
    ∃ e, fix_dicts_datetime [timeFirstRow] = .error e :=
  (datectx_requires_separator timeFirstRow []).1 (by decide)

/-- C6: the record normalizer rejects any non-empty batch whose rows do
not all share the first row's device identifier, producing no record at
all, and accepts a batch with one shared identifier, producing the mapped
records. -/
theorem to_records_single_device (d0 : DRow) (rest : List DRow) :
    ((∃ i ∈ d0 :: rest, i.aansluiting ≠ d0.aansluiting) →
      to_records (d0 :: rest) = .error "batch mixes multiple Aansluiting values") ∧
    ((∀ i ∈ d0 :: rest, i.aansluiting = d0.aansluiting) →
      to_records (d0 :: rest) = .ok ((d0 :: rest).map recordOfRow)) := by
  constructor
  · rintro ⟨i, hi, hne⟩
    have hall : ¬ ((d0 :: rest).all
        (fun i => decide (i.aansluiting = d0.aansluiting)) = true) := by
      simp only [List.all_eq_true, decide_eq_true_eq]
      intro hforall
      exact hne (hforall i hi)
    simp only [to_records]
    rw [if_neg hall]
  · intro hforall
    have hall : (d0 :: rest).all
        (fun i => decide (i.aansluiting = d0.aansluiting)) = true := by
      simp only [List.all_eq_true, decide_eq_true_eq]
      exact hforall
    simp only [to_records]
    rw [if_pos hall]

/-- Sample rows for the mixed-device batch. -/
def mixedRowA : DRow :=
  { aansluiting := "E0123456", alrm := "IN", groep := "5",
    omschrijving := "In", sector := "0", tijd := ⟨2023, 2, 2, 19, 9, 48⟩,
    info := none }

/-- Second sample row, differing only in the device identifier. -/
def mixedRowB : DRow := { mixedRowA with aansluiting := "E0999999" }

/-- Witness for the device-identifier check on a concrete mixed batch and
a concrete uniform batch. -/
theorem to_records_single_device_witness :
    to_records [mixedRowA, mixedRowB] =
      .error "batch mixes multiple Aansluiting values" ∧
    to_records [mixedRowA, mixedRowA] =
      .ok ([mixedRowA, mixedRowA].map recordOfRow) :=
  ⟨(to_records_single_device mixedRowA [mixedRowB]).1
      ⟨mixedRowB, by simp, by decide⟩,
   (to_records_single_device mixedRowA [mixedRowA]).2 (by decide)⟩

/-- C2: annotation correlation is symmetric.  For an annotation row `A`
and a substantive row `R` sharing the correlation key, reconciling with
`A` immediately before `R` produces the same single output row, carrying
the annotation description as its info, as reconciling with `A`
immediately after `R`. -/
theorem annotation_symmetric (A R : DRow) (hA : A.alrm = "INF")
    (hR : R.alrm ≠ "INF") (hk : sameKey A R = true) :
    fix_dicts_who_did_what [A, R] =
      .ok [{ R with info := some A.omschrijving }] ∧
    fix_dicts_who_did_what [R, A] =
      .ok [{ R with info := some A.omschrijving }] := by
  have hk' : sameKey R A = true := sameKey_symm hk
  constructor
  · simp [fix_dicts_who_did_what, widwGo, widwStep, hA, hR, hk']
  · simp [fix_dicts_who_did_what, widwGo, widwStep, hA, hR, hk']

/-- Sample annotation row for the symmetry witness. -/
def annRow : DRow :=
  { aansluiting := "E0123456", alrm := "INF", groep := "5",
    omschrijving := "VOLL. ING BOB", sector := "0",
    tijd := ⟨2023, 2, 2, 19, 9, 48⟩, info := none }

/-- Sample substantive row for the symmetry witness. -/
def subRow : DRow :=
  { aansluiting := "E0123456", alrm := "IN", groep := "5",
    omschrijving := "In", sector := "0", tijd := ⟨2023, 2, 2, 19, 9, 48⟩,
    info := none }

/-- Witness instantiating the annotation symmetry on the concrete
annotation and target rows of the recorded scenario. -/
theorem annotation_symmetric_witness :
    fix_dicts_who_did_what [annRow, subRow] =
      .ok [{ subRow with info := some annRow.omschrijving }] ∧
    fix_dicts_who_did_what [subRow, annRow] =
      .ok [{ subRow with info := some annRow.omschrijving }] :=
  annotation_symmetric annRow subRow (by rfl) (by decide) (by decide)

/-- C10: when a second annotation row arrives that does not backward
correlate with the last emitted row while another annotation is already
pending, the new annotation silently replaces the pending one: the run
succeeds, the replaced annotation's description appears in no output row
(the result does not depend on it at all), and the survivor's description
is attached to the following substantive row. -/
theorem pending_annotation_replaced (R0 A1 A2 R : DRow)
    (hR0 : R0.alrm ≠ "INF") (hA1 : A1.alrm = "INF") (hA2 : A2.alrm = "INF")
    (hR : R.alrm ≠ "INF")
    (hm1 : sameKey R0 A1 = false) (hm2 : sameKey R0 A2 = false)
    (hk : sameKey A2 R = true) :
    fix_dicts_who_did_what [R0, A1, A2, R] =
      .ok [R0, { R with info := some A2.omschrijving }] := by
  have hk' : sameKey R A2 = true := sameKey_symm hk
  simp [fix_dicts_who_did_what, widwGo, widwStep, hR0, hA1, hA2, hR,
    hm1, hm2, hk']

/-- Earlier substantive row for the replaced-annotation witness; its key
matches neither annotation. -/
def staleTarget : DRow :=
  { aansluiting := "E0123456", alrm := "UIT", groep := "6",
    omschrijving := "Uit", sector := "0", tijd := ⟨2023, 2, 3, 8, 37, 20⟩,
    info := none }

/-- First (soon replaced) pending annotation for the witness. -/
def replacedAnn : DRow :=
  { aansluiting := "E0123456", alrm := "INF", groep := "6",
    omschrijving := "UITGESCH. CHARLIE", sector := "0",
    tijd := ⟨2023, 2, 3, 8, 40, 0⟩, info := none }

/-- Witness for the silent replacement of a pending annotation, on
concrete rows: the first annotation's description is absent from the
output and no error occurs. -/
theorem pending_annotation_replaced_witness :
    fix_dicts_who_did_what [staleTarget, replacedAnn, annRow, subRow] =
      .ok [staleTarget, { subRow with info := some annRow.omschrijving }] :=
  pending_annotation_replaced staleTarget replacedAnn annRow subRow
    (by decide) (by rfl) (by rfl) (by decide) (by decide) (by decide)
    (by decide)

/-- Concrete reconciled row whose alarm-code is empty, as in the system
log lines of the second recorded scenario. -/
def emptyCodeRow : DRow :=
  { aansluiting := "E0123456", alrm := "", groep := "",
    omschrijving := "Gebr.: Mark Evert", sector := "0",
    tijd := ⟨2023, 3, 15, 13, 54, 51⟩, info := none }

/-- Counterexample to C8 as stated: the empty alarm-code is not in the
fixed vocabulary, yet the produced event kind is the log marker text, not
the raw code verbatim. -/
theorem unknown_code_empty_cex :
    emptyCodeRow.alrm ∉ (["IN", "UIT", "24H", "TVU", "TLI", "AFW"] : List String) ∧
    to_records [emptyCodeRow] = .ok [recordOfRow emptyCodeRow] ∧
    (recordOfRow emptyCodeRow).event = "(log)" ∧
    (recordOfRow emptyCodeRow).event ≠ emptyCodeRow.alrm :=
  ⟨by decide, by rfl, by rfl, by decide⟩

/-- C8 (amended): a row whose alarm-code is neither in the fixed
vocabulary nor empty gets the raw code verbatim as its event kind; the
empty code is the single exception, replaced by the log marker. -/
theorem unknown_code_passthrough (row : DRow)
    (h1 : row.alrm ∉ (["IN", "UIT", "24H", "TVU", "TLI", "AFW"] : List String))
    (h2 : row.alrm ≠ "") :
    (recordOfRow row).event = row.alrm := by
  simp only [List.mem_cons, List.not_mem_nil, or_false, not_or] at h1
  obtain ⟨n1, n2, n3, n4, n5, n6⟩ := h1
  simp [recordOfRow, eventName, n1, n2, n3, n4, n5, n6, h2]

/-- Concrete row with an out-of-vocabulary alarm-code. -/
def inbRow : DRow :=
  { aansluiting := "E0123456", alrm := "INB", groep := "1034",
    omschrijving := "Inbraak", sector := "0",
    tijd := ⟨2023, 3, 15, 12, 14, 20⟩, info := none }

/-- Witness for the verbatim pass-through of an unknown non-empty
alarm-code. -/
theorem unknown_code_passthrough_witness :
    (recordOfRow inbRow).event = inbRow.alrm :=
  unknown_code_passthrough inbRow (by decide) (by decide)

/-- Row-zipping logic of `html_table_to_dicts`, starting after the
external HTML parser has produced the header-cell texts (`columns`) and
the body rows' cell texts.  Each row maps the label at position `n` to the
trimmed text of cell `n`; looking up a position beyond the header labels
is the `IndexError`, re-raised with the offending row's cells as the
message. -/
def html_table_to_dicts (columns : List String) :
    List (List String) → Except (List String) (List (List (String × String)))
  | [] => .ok []
  | tds :: rest =>
    if columns.length < tds.length then .error tds
    else
      Except.map (fun tail => columns.zip (tds.map String.trim) :: tail)
        (html_table_to_dicts columns rest)

/-- Helper: the first body row wider than the header fails the whole
extraction with that row as the error payload. -/
theorem extractorErrAux (columns bad : List String)
    (post : List (List String)) (hbad : columns.length < bad.length) :
    ∀ pre : List (List String), (∀ r ∈ pre, r.length ≤ columns.length) →
      html_table_to_dicts columns (pre ++ bad :: post) = .error bad := by
  intro pre
  induction pre with
  | nil =>
    intro _
    simp only [List.nil_append, html_table_to_dicts]
    rw [if_pos hbad]
  | cons p ps ih =>
    intro hpre
    have hp : p.length ≤ columns.length := hpre p (by simp)
    simp only [List.cons_append, html_table_to_dicts, List.append_eq]
    rw [if_neg (by omega), ih (fun r hr => hpre r (by simp [hr]))]
    rfl

/-- Helper: a batch containing any body row wider than the header never
produces a successful extraction. -/
theorem extractorNoOkAux (columns : List String) :
    ∀ rows : List (List String), (∃ r ∈ rows, columns.length < r.length) →
      ∀ out, html_table_to_dicts columns rows ≠ .ok out := by
  intro rows
  induction rows with
  | nil =>
    rintro ⟨r, hr, -⟩
    cases hr
  | cons t ts ih =>
    rintro ⟨r, hr, hlen⟩ out hok
    by_cases hc : columns.length < t.length
    · simp only [html_table_to_dicts] at hok
      rw [if_pos hc] at hok
      cases hok
    · rcases List.mem_cons.mp hr with rfl | hr2
      · exact hc hlen
      · simp only [html_table_to_dicts] at hok
        rw [if_neg hc] at hok
        cases hX : html_table_to_dicts columns ts with
        | error e => rw [hX] at hok; cases hok
        | ok l => exact ih ⟨r, hr2, hlen⟩ l hX

/-- Helper: when every body row is at most as wide as the header, the
extraction succeeds and each row zips the label prefix with its trimmed
cells. -/
theorem extractorOkAux (columns : List String) :
    ∀ rows : List (List String), (∀ r ∈ rows, r.length ≤ columns.length) →
      html_table_to_dicts columns rows =
        .ok (rows.map (fun tds => columns.zip (tds.map String.trim))) := by
  intro rows
  induction rows with
  | nil => intro _; rfl
  | cons t ts ih =>
    intro h
    have ht : t.length ≤ columns.length := h t (by simp)
    simp only [html_table_to_dicts]
    rw [if_neg (by omega), ih (fun r hr => h r (by simp [hr]))]
    rfl

/-- C7: the raw table extractor fails, with the offending row as the
error payload, whenever a body row has more cells than there are header
labels (the first such row is the payload, and no over-wide batch ever
succeeds), while a batch whose rows all have at most as many cells as
labels is accepted, each row mapping only the labels of the cells
present. -/
theorem extractor_row_width (columns bad : List String)
    (pre post rows : List (List String)) :
    ((∀ r ∈ pre, r.length ≤ columns.length) → columns.length < bad.length →
      html_table_to_dicts columns (pre ++ bad :: post) = .error bad) ∧
    ((∃ r ∈ rows, columns.length < r.length) →
      ∀ out, html_table_to_dicts columns rows ≠ .ok out) ∧
    ((∀ r ∈ rows, r.length ≤ columns.length) →
      html_table_to_dicts columns rows =
        .ok (rows.map (fun tds => columns.zip (tds.map String.trim)))) :=
  ⟨fun hpre hbad => extractorErrAux columns bad post hbad pre hpre,
   extractorNoOkAux columns rows,
   extractorOkAux columns rows⟩

/-- Witness for the extractor width check on a concrete three-cell row
against a two-label header, and a concrete narrow row accepted. -/
theorem extractor_row_width_witness :
    html_table_to_dicts ["Aansluiting", "Alrm"] [["a", "b", "c"]] =
      .error ["a", "b", "c"] ∧
    html_table_to_dicts ["Aansluiting", "Alrm"] [[" a "]] =
      .ok ([[" a "]].map (fun tds =>
        (["Aansluiting", "Alrm"]).zip (tds.map String.trim))) :=
  ⟨(extractor_row_width ["Aansluiting", "Alrm"] ["a", "b", "c"] [] []
      []).1 (by simp) (by decide),
   (extractor_row_width ["Aansluiting", "Alrm"] [] [] [] [[" a "]]).2.2
      (by decide)⟩

/-- Lexicographic strict comparison of lists of naturals, the order
underlying Python's componentwise datetime and code-point string
comparisons. -/
def lexLt : List Nat → List Nat → Bool
  | _, [] => false
  | [], _ :: _ => true
  | a :: as, b :: bs => decide (a < b) || (decide (a = b) && lexLt as bs)

/-- Helper: `lexLt` is transitive. -/
theorem lexLt_trans : ∀ a b c : List Nat,
    lexLt a b = true → lexLt b c = true → lexLt a c = true := by
  intro a
  induction a with
  | nil =>
    intro b c hab hbc
    cases b with
    | nil => simp [lexLt] at hab
    | cons y ys =>
      cases c with
      | nil => simp [lexLt] at hbc
      | cons z zs => simp [lexLt]
  | cons x xs ih =>
    intro b c hab hbc
    cases b with
    | nil => simp [lexLt] at hab
    | cons y ys =>
      cases c with
      | nil => simp [lexLt] at hbc
      | cons z zs =>
        simp only [lexLt, Bool.or_eq_true, Bool.and_eq_true,
          decide_eq_true_eq] at hab hbc ⊢
        rcases hab with h1 | ⟨he1, h1⟩
        · rcases hbc with h2 | ⟨he2, h2⟩
          · exact Or.inl (by omega)
          · exact Or.inl (he2 ▸ h1)
        · rcases hbc with h2 | ⟨he2, h2⟩
          · exact Or.inl (he1 ▸ h2)
          · exact Or.inr ⟨he1.trans he2, ih ys zs h1 h2⟩

/-- Helper: `lexLt` is asymmetric. -/
theorem lexLt_asymm : ∀ a b : List Nat,
    lexLt a b = true → lexLt b a = true → False := by
  intro a
  induction a with
  | nil =>
    intro b hab hba
    cases b with
    | nil => simp [lexLt] at hab
    | cons y ys => simp [lexLt] at hba
  | cons x xs ih =>
    intro b hab hba
    cases b with
    | nil => simp [lexLt] at hab
    | cons y ys =>
      simp only [lexLt, Bool.or_eq_true, Bool.and_eq_true,
        decide_eq_true_eq] at hab hba
      rcases hab with h1 | ⟨he1, h1⟩ <;> rcases hba with h2 | ⟨he2, h2⟩
      · omega
      · omega
      · omega
      · exact ih ys h1 h2

/-- Helper: two lists neither of which lexicographically precedes the
other are equal. -/
theorem lexLt_connex : ∀ a b : List Nat,
    lexLt a b = false → lexLt b a = false → a = b := by
  intro a
  induction a with
  | nil =>
    intro b hab _
    cases b with
    | nil => rfl
    | cons y ys => simp [lexLt] at hab
  | cons x xs ih =>
    intro b hab hba
    cases b with
    | nil => simp [lexLt] at hba
    | cons y ys =>
      simp only [lexLt, Bool.or_eq_false_iff, Bool.and_eq_false_iff,
        decide_eq_false_iff_not, decide_eq_true_eq] at hab hba
      obtain ⟨hxy, hab2⟩ := hab
      obtain ⟨hyx, hba2⟩ := hba
      have hxyeq : x = y := by omega
      subst hxyeq
      rcases hab2 with h | hab3
      · exact absurd rfl h
      · rcases hba2 with h | hba3
        · exact absurd rfl h
        · rw [ih ys hab3 hba3]

/-- Encoding of a Python datetime as its six components, so that `lexLt`
on the encodings is exactly Python's componentwise datetime comparison. -/
def dtKey (d : PyDateTime) : List Nat :=
  [d.year, d.month, d.day, d.hour, d.minute, d.second]

/-- Python `datetime` strict less-than, as used by the staleness check of
the delivery loop. -/
def dtLt (a b : PyDateTime) : Bool := lexLt (dtKey a) (dtKey b)

/-- Encoding of a string as its code points, so that `lexLt` on the
encodings is Python's string comparison. -/
def strKey (s : String) : List Nat := s.data.map Char.toNat

/-- The sort key of the delivery loop, from the source's `SORT_KEY`
lambda producing the pair (datetime, event).  Since `dtKey` always has
length six, lexicographic comparison of the concatenated encodings agrees
with Python's lexicographic comparison of the pair. -/
def AlarmRecord.SORT_KEY (r : AlarmRecord) : List Nat :=
  dtKey r.datetime ++ strKey r.event

/-- Non-strict comparison by sort key, the order in which Python's
`sorted` arranges the unseen events. -/
def recordLE (x y : AlarmRecord) : Bool :=
  !(lexLt y.SORT_KEY x.SORT_KEY)

/-- Helper: `recordLE` is transitive. -/
theorem recordLE_trans (a b c : AlarmRecord)
    (hab : recordLE a b = true) (hbc : recordLE b c = true) :
    recordLE a c = true := by
  simp only [recordLE, Bool.not_eq_true'] at hab hbc ⊢
  cases hca : lexLt c.SORT_KEY a.SORT_KEY with
  | false => rfl
  | true =>
    exfalso
    cases h1 : lexLt a.SORT_KEY b.SORT_KEY with
    | true =>
      have h2 := lexLt_trans c.SORT_KEY a.SORT_KEY b.SORT_KEY hca h1
      rw [h2] at hbc
      cases hbc
    | false =>
      have heq := lexLt_connex a.SORT_KEY b.SORT_KEY h1 hab
      rw [heq] at hca
      rw [hca] at hbc
      cases hbc

/-- Helper: `recordLE` is total. -/
theorem recordLE_total (a b : AlarmRecord) :
    (recordLE a b || recordLE b a) = true := by
  simp only [recordLE, Bool.or_eq_true, Bool.not_eq_true']
  cases h1 : lexLt b.SORT_KEY a.SORT_KEY with
  | false => exact Or.inl rfl
  | true =>
    right
    cases h2 : lexLt a.SORT_KEY b.SORT_KEY with
    | false => rfl
    | true => exact (lexLt_asymm _ _ h2 h1).elim

/-- One DIFFING step of the delivery loop: the unseen events are the set
difference of the current fetch against the previous snapshot, and the
snapshot is then replaced wholesale by the current fetch. -/
def diffStep (alreadyPublished data : Finset AlarmRecord) :
    Finset AlarmRecord × Finset AlarmRecord :=
  (data \ alreadyPublished, data)

/-- The per-cycle selected (unseen) sets over a run of consecutive
delivery cycles starting from the given snapshot. -/
def publishCycles (alreadyPublished : Finset AlarmRecord) :
    List (Finset AlarmRecord) → List (Finset AlarmRecord)
  | [] => []
  | d :: ds =>
    (diffStep alreadyPublished d).1 ::
      publishCycles (diffStep alreadyPublished d).2 ds

/-- The DELIVERING stage: sort the unseen events by `SORT_KEY` ascending
and deliver those whose timestamp is not older than the four-hour
horizon; the stale ones are only logged. -/
def deliverRecords (aWhileAgo : PyDateTime)
    (notPublishedYet : List AlarmRecord) : List AlarmRecord :=
  (notPublishedYet.mergeSort recordLE).filter
    (fun r => !(dtLt r.datetime aWhileAgo))

/-- C3: each cycle selects exactly the set difference of the current
event set against the previous snapshot and replaces the snapshot
wholesale; for consecutive cycle sets E1 then E2 with E2 a superset of
E1 only the difference is selected on the second cycle; and an event
absent from one cycle that reappears later is selected as new again. -/
theorem diffing_replace_policy (prev cur E1 E2 E3 : Finset AlarmRecord)
    (e : AlarmRecord) :
    ((diffStep prev cur).1 = cur \ prev ∧ (diffStep prev cur).2 = cur) ∧
    (E1 ⊆ E2 → publishCycles ∅ [E1, E2] = [E1, E2 \ E1]) ∧
    (e ∈ E1 → e ∉ E2 → e ∈ E3 →
      e ∈ (publishCycles ∅ [E1, E2, E3]).getD 2 ∅) := by
  refine ⟨⟨rfl, rfl⟩, ?_, ?_⟩
  · intro _
    simp [publishCycles, diffStep]
  · intro h1 h2 h3
    simp only [publishCycles, diffStep, List.getD, List.getElem?_cons_succ,
      List.getElem?_cons_zero, Option.getD_some]
    exact Finset.mem_sdiff.mpr ⟨h3, h2⟩

/-- Sample record for the diffing witness. -/
def recA : AlarmRecord :=
  { datetime := ⟨2023, 2, 2, 19, 9, 48⟩, event := "ALARM_ON", group := "5",
    sector := "0", extra := "VOLL. ING BOB (In)" }

/-- Second sample record for the diffing witness. -/
def recB : AlarmRecord :=
  { datetime := ⟨2023, 2, 3, 8, 37, 20⟩, event := "ALARM_OFF",
    group := "6", sector := "0", extra := "UITGESCH. CHARLIE (Uit)" }

/-- Witness for the diffing policy on concrete sets: a superset second
cycle delivers only the difference, and a record that vanishes for one
cycle is selected again on reappearance. -/
theorem diffing_replace_policy_witness :
    publishCycles ∅ [({recA} : Finset AlarmRecord), {recA, recB}] =
      [{recA}, ({recA, recB} : Finset AlarmRecord) \ {recA}] ∧
    recA ∈ (publishCycles ∅
      [({recA} : Finset AlarmRecord), ∅, {recA}]).getD 2 ∅ :=
  ⟨(diffing_replace_policy ∅ ∅ {recA} {recA, recB} ∅ recA).2.1
      (by decide),
   (diffing_replace_policy ∅ ∅ {recA} ∅ {recA} recA).2.2
      (by decide) (by decide) (by decide)⟩

/-- C4: the unseen events are processed in ascending `SORT_KEY` order
(timestamp, then event kind), a record is delivered exactly when it is
among the unseen events and not older than the horizon — so any stale
record is never delivered, including the first-ever fetch, where the
empty previous snapshot makes every fetched event unseen. -/
theorem delivering_sorted_fresh (aWhileAgo : PyDateTime)
    (l : List AlarmRecord) (r : AlarmRecord) (data : Finset AlarmRecord) :
    (l.mergeSort recordLE).Pairwise (fun a b => recordLE a b = true) ∧
    (r ∈ deliverRecords aWhileAgo l ↔
      r ∈ l ∧ dtLt r.datetime aWhileAgo = false) ∧
    (diffStep ∅ data).1 = data := by
  refine ⟨?_, ?_, ?_⟩
  · exact List.sorted_mergeSort recordLE_trans recordLE_total l
  · simp [deliverRecords, List.mem_filter, Bool.not_eq_true']
  · simp [diffStep]

/-- Retry budget in seconds. -/
def MAX_FAIL_TIME : Int := 1800

/-- Outcome of one attempt of the fetch plus parse sequence inside
`fetch_logs_with_retry`: either a successful record list, or an exception
together with the wall-clock time observed right after the failure (the
value `time.time()` returns at the `td` computation). -/
inductive FetchOutcome where
  | ok (recs : List AlarmRecord)
  | exc (t : Int)

/-- The `fetch_logs_with_retry` loop over a trace of attempt outcomes:
success returns the data, a failure propagates the exception when the
elapsed time since `t0` has reached `MAX_FAIL_TIME` and otherwise sleeps
and retries.  `none` means the modelled trace ended with the loop still
running; the error payload records the elapsed time `td` at the escape. -/
def fetch_logs_with_retry (t0 : Int) :
    List FetchOutcome → Option (Except Int (List AlarmRecord))
  | [] => none
  | .ok recs :: _ => some (.ok recs)
  | .exc t :: rest =>
    if MAX_FAIL_TIME ≤ t - t0 then some (.error (t - t0))
    else fetch_logs_with_retry t0 rest

/-- Shifting every attempt timestamp of a trace by a constant. -/
def shiftOutcome (c : Int) : FetchOutcome → FetchOutcome
  | .ok recs => .ok recs
  | .exc t => .exc (t + c)

/-- C9: the retry wrapper lets an exception escape only when the elapsed
time since the cycle start `t0` has reached `MAX_FAIL_TIME`; a failure
observed at or past the budget, after failures all under the budget,
propagates; and the behaviour depends only on times relative to `t0`, so
the budget is re-armed fresh by each cycle's own start time and carries
nothing over from earlier cycles. -/
theorem retry_budget_policy (t0 c t : Int)
    (attempts pre rest : List FetchOutcome) :
    (∀ td, fetch_logs_with_retry t0 attempts = some (.error td) →
      MAX_FAIL_TIME ≤ td) ∧
    ((∀ a ∈ pre, ∃ tf, a = FetchOutcome.exc tf ∧ tf - t0 < MAX_FAIL_TIME) →
      MAX_FAIL_TIME ≤ t - t0 →
      fetch_logs_with_retry t0 (pre ++ FetchOutcome.exc t :: rest) =
        some (.error (t - t0))) ∧
    (fetch_logs_with_retry (t0 + c) (attempts.map (shiftOutcome c)) =
      fetch_logs_with_retry t0 attempts) := by
  refine ⟨?_, ?_, ?_⟩
  · induction attempts with
    | nil =>
      intro td h
      cases h
    | cons a rest2 ih =>
      intro td h
      cases a with
      | ok recs =>
        simp only [fetch_logs_with_retry] at h
        cases h
      | exc tf =>
        by_cases hc : MAX_FAIL_TIME ≤ tf - t0
        · simp only [fetch_logs_with_retry] at h
          rw [if_pos hc] at h
          cases h
          exact hc
        · simp only [fetch_logs_with_retry] at h
          rw [if_neg hc] at h
          exact ih td h
  · induction pre with
    | nil =>
      intro _ ht
      simp only [List.nil_append, fetch_logs_with_retry]
      rw [if_pos ht]
    | cons a ps ih =>
      intro hpre ht
      obtain ⟨tf, rfl, htf⟩ := hpre a (by simp)
      simp only [List.cons_append, fetch_logs_with_retry]
      rw [if_neg (by omega)]
      exact ih (fun x hx => hpre x (by simp [hx])) ht
  · induction attempts with
    | nil => rfl
    | cons a rest2 ih =>
      cases a with
      | ok recs => rfl
      | exc tf =>
        simp only [List.map, shiftOutcome, fetch_logs_with_retry]
        have harith : tf + c - (t0 + c) = tf - t0 := by omega
        rw [harith]
        by_cases hc : MAX_FAIL_TIME ≤ tf - t0
        · rw [if_pos hc, if_pos hc]
        · rw [if_neg hc, if_neg hc]
          exact ih

/-- Witness for the retry policy: a single failure observed 1800 seconds
after the cycle start escapes with the exception. -/
theorem retry_budget_policy_witness :
    fetch_logs_with_retry 100 [FetchOutcome.exc 1900] =
      some (.error (1900 - 100)) :=
  (retry_budget_policy 100 0 1900 [] [] []).2.1 (by simp) (by decide)

end AlertLog
